import Mathlib

/-!
Verification development for the OptiPix image-transformation pipeline
(src/src/App.tsx, imageOptimization module; src/unnamed/part_000 is an
earlier variant of the same module with the identical resize gating and
favicon logic, without the HEIC stage and the AVIF case).

The code is embedded shallowly.  Asynchronous browser primitives
(FileReader, Image decode, canvas.getContext, canvas.toBlob, heic2any)
are modelled by an explicit environment `Env` of success predicates: the
actual pixel payload of a blob is not observable in any claim, so a blob
is represented by its display name, declared mime tag and decoded
dimensions, and each fallible primitive either fails (mirroring the
reject/throw paths of the source, in source order) or produces the value
the source would produce.  Every operation returns `Except Err _`,
mirroring the promise rejection discipline of the source.
-/

/-- Model of the TS `file.name.replace(/\.[^/.]+$/, "")` idiom: drop a final
extension, i.e. a trailing dot followed by one or more characters none of
which is a dot or a slash; if no such suffix exists the name is unchanged. -/
def stripExt (s : String) : String :=
  let r := s.data.reverse
  let run := r.takeWhile (fun c => !(c == '.') && !(c == '/'))
  match r.drop run.length with
  | '.' :: rest => if run.isEmpty then s else String.mk rest.reverse
  | _ => s

/-- Escape of one character inside a JSON string literal, as performed by
`JSON.stringify` (only the escapes that can arise here are distinguished;
other characters are emitted verbatim). -/
def jsEscapeChar (c : Char) : String :=
  if c = '\"' then "\\\""
  else if c = '\\' then "\\\\"
  else if c = '\n' then "\\n"
  else if c = '\t' then "\\t"
  else if c = '\r' then "\\r"
  else String.singleton c

/-- A JSON string literal with surrounding quotes, as `JSON.stringify` emits it. -/
def jsQuote (s : String) : String :=
  "\"" ++ String.join (s.data.map jsEscapeChar) ++ "\""

/-- Indentation used by `JSON.stringify(v, null, 2)`: two spaces per depth level. -/
def jsIndentStr (d : Nat) : String :=
  String.mk (List.replicate (2 * d) ' ')

mutual
/-- A JSON value as built by the source before serialization (only the
constructors the manifest object needs: strings, arrays, objects). -/
inductive JsVal : Type where
  | str : String → JsVal
  | arr : JsArr → JsVal
  | obj : JsObj → JsVal

/-- A JSON array, as a bespoke list so that the renderer is structurally
recursive over the mutual family. -/
inductive JsArr : Type where
  | nil : JsArr
  | cons : JsVal → JsArr → JsArr

/-- A JSON object: an ordered field list (JSON.stringify preserves
insertion order of object literal fields). -/
inductive JsObj : Type where
  | nil : JsObj
  | cons : String → JsVal → JsObj → JsObj
end

/-- Conversion from an ordinary list into the bespoke array type. -/
def JsArr.ofList : List JsVal → JsArr
  | [] => .nil
  | x :: xs => .cons x (JsArr.ofList xs)

/-- Conversion from an ordinary association list into the bespoke object type. -/
def JsObj.ofList : List (String × JsVal) → JsObj
  | [] => .nil
  | (k, v) :: fs => .cons k v (JsObj.ofList fs)

mutual
/-- Rendering of a JSON value at depth `d`, modelling `JSON.stringify(v, null, 2)`:
an empty array or object renders on one line, a nonempty one opens a bracket,
renders each item on its own line at depth `d + 1`, and closes the bracket at
depth `d`. -/
def JsVal.render : JsVal → Nat → String
  | .str s, _ => jsQuote s
  | .arr .nil, _ => "[]"
  | .arr (.cons x xs), d =>
      "[\n" ++ jsIndentStr (d + 1) ++ JsVal.render x (d + 1) ++
        JsArr.renderRest xs (d + 1) ++ "\n" ++ jsIndentStr d ++ "]"
  | .obj .nil, _ => "\x7b\x7d"
  | .obj (.cons k v fs), d =>
      "\x7b\n" ++ jsIndentStr (d + 1) ++ jsQuote k ++ ": " ++ JsVal.render v (d + 1) ++
        JsObj.renderRest fs (d + 1) ++ "\n" ++ jsIndentStr d ++ "\x7d"

/-- Rendering of the items of a JSON array after the first, each preceded by
a comma, a newline and its indentation. -/
def JsArr.renderRest : JsArr → Nat → String
  | .nil, _ => ""
  | .cons y ys, d =>
      ",\n" ++ jsIndentStr d ++ JsVal.render y d ++ JsArr.renderRest ys d

/-- Rendering of the fields of a JSON object after the first, each preceded
by a comma, a newline and its indentation. -/
def JsObj.renderRest : JsObj → Nat → String
  | .nil, _ => ""
  | .cons k v fs, d =>
      ",\n" ++ jsIndentStr d ++ jsQuote k ++ ": " ++ JsVal.render v d ++
        JsObj.renderRest fs d
end

/-- Model of `JSON.stringify(v, null, 2)`: pretty-printed two-space-indented JSON. -/
def jsStringify (v : JsVal) : String :=
  JsVal.render v 0

/-- A browser `File`/blob as observed by the claims: display name, declared
mime tag, and the dimensions of its decoded raster surface.  The byte payload
itself is not observable by any claim and is not modelled. -/
structure ImageFile where
  name : String
  mime : String
  width : Nat
  height : Nat
deriving DecidableEq, Repr

/-- Failure taxonomy: one constructor per distinct reject/throw site of the source. -/
inductive Err : Type where
  /-- reader.onerror: `File reading error` -/
  | readFail
  /-- img.onerror: `Image loading error` -/
  | imgLoad
  /-- getContext returned null: `Could not create canvas context` -/
  | ctxFail
  /-- canvas.toBlob produced null inside a conversion: `Canvas to Blob conversion failed` -/
  | blobFail
  /-- heic2any rejected -/
  | heicFail
  /-- `Failed to create PNG blob` in the favicon PNG branch -/
  | pngBlobFail
  /-- `Failed to create ICO blob` in generateIcoFile -/
  | icoBlobFail
  /-- runtime TypeError from selecting a canvas that does not exist
  (`canvases[-1].toBlob` after indexOf misses, or `reduce` on an empty array) -/
  | invalidSelection
deriving DecidableEq, Repr

/-- Environment of browser primitives.  Each field tells whether the
corresponding asynchronous primitive succeeds on the given arguments;
`encodeOk w h mime q` is `canvas.toBlob` on a `w × h` surface at mime type
`mime` and optional encoder quality `q` (`none` when the source omits the
quality argument).  Every encoder quality passed by the source is an
integer number of hundredths of 1 (`quality / 100` for an integer percent
`quality`, and the literals `0.9` and `0.8`), so a quality is represented
exactly by its numerator in hundredths: `some 90` stands for `0.9`. -/
structure Env where
  readOk : ImageFile → Bool
  decodeOk : ImageFile → Bool
  ctxOk : Bool
  encodeOk : Nat → Nat → String → Option Nat → Bool
  heicOk : ImageFile → Bool

/-- The environment in which every browser primitive succeeds. -/
def envAll : Env :=
  { readOk := fun _ => true
    decodeOk := fun _ => true
    ctxOk := true
    encodeOk := fun _ _ _ _ => true
    heicOk := fun _ => true }

/-- An in-memory drawing surface; only its dimensions are observable. -/
structure Canvas where
  width : Nat
  height : Nat
deriving DecidableEq, Repr

/-- Model of the helper `createCanvasFromFile`: read the file, decode it,
create a canvas of its natural dimensions, draw the image onto it. -/
def createCanvasFromFile (env : Env) (file : ImageFile) : Except Err Canvas :=
  if !env.readOk file then .error .readFail
  else if !env.decodeOk file then .error .imgLoad
  else if !env.ctxOk then .error .ctxFail
  else .ok { width := file.width, height := file.height }

/-- Model of the helper `createImageFromFile`: read and decode the file into
an image element (whose natural dimensions are those of the file). -/
def createImageFromFile (env : Env) (file : ImageFile) : Except Err ImageFile :=
  if !env.readOk file then .error .readFail
  else if !env.decodeOk file then .error .imgLoad
  else .ok file

/-- Model of `convertToWebP`: decode, draw unscaled on a canvas of natural
size, encode as image/webp at quality/100, rename to the .webp extension. -/
def convertToWebP (env : Env) (file : ImageFile) (quality : Nat := 80) :
    Except Err ImageFile :=
  if !env.readOk file then .error .readFail
  else if !env.decodeOk file then .error .imgLoad
  else if !env.ctxOk then .error .ctxFail
  else if !env.encodeOk file.width file.height "image/webp" (some quality) then
    .error .blobFail
  else
    .ok { name := stripExt file.name ++ ".webp", mime := "image/webp",
          width := file.width, height := file.height }

/-- Model of `convertToAVIF`: same shape as convertToWebP with target image/avif. -/
def convertToAVIF (env : Env) (file : ImageFile) (quality : Nat := 80) :
    Except Err ImageFile :=
  if !env.readOk file then .error .readFail
  else if !env.decodeOk file then .error .imgLoad
  else if !env.ctxOk then .error .ctxFail
  else if !env.encodeOk file.width file.height "image/avif" (some quality) then
    .error .blobFail
  else
    .ok { name := stripExt file.name ++ ".avif", mime := "image/avif",
          width := file.width, height := file.height }

/-- Model of `convertToJPEG`: as convertToWebP but the canvas is pre-filled
with opaque white before drawing (compositing only affects pixel content,
which is not observable here), target image/jpeg, extension .jpg. -/
def convertToJPEG (env : Env) (file : ImageFile) (quality : Nat) :
    Except Err ImageFile :=
  if !env.readOk file then .error .readFail
  else if !env.decodeOk file then .error .imgLoad
  else if !env.ctxOk then .error .ctxFail
  else if !env.encodeOk file.width file.height "image/jpeg" (some quality) then
    .error .blobFail
  else
    .ok { name := stripExt file.name ++ ".jpg", mime := "image/jpeg",
          width := file.width, height := file.height }

/-- Model of `convertToPNG`: target image/png, extension .png; the quality
argument is still forwarded to the encoder as quality/100. -/
def convertToPNG (env : Env) (file : ImageFile) (quality : Nat) :
    Except Err ImageFile :=
  if !env.readOk file then .error .readFail
  else if !env.decodeOk file then .error .imgLoad
  else if !env.ctxOk then .error .ctxFail
  else if !env.encodeOk file.width file.height "image/png" (some quality) then
    .error .blobFail
  else
    .ok { name := stripExt file.name ++ ".png", mime := "image/png",
          width := file.width, height := file.height }

/-- Model of `resizeImage`: decode, draw stretched to exactly width by
height, re-encode at the original mime type at the fixed quality 0.9
(represented as 90 hundredths), keep the original name and mime tag. -/
def resizeImage (env : Env) (file : ImageFile) (width height : Nat) :
    Except Err ImageFile :=
  if !env.readOk file then .error .readFail
  else if !env.decodeOk file then .error .imgLoad
  else if !env.ctxOk then .error .ctxFail
  else if !env.encodeOk width height file.mime (some 90) then
    .error .blobFail
  else
    .ok { name := file.name, mime := file.mime, width := width, height := height }

/-- The target formats accepted by `convertFromHEIC`. -/
inductive HeicTarget : Type where
  | jpeg
  | png
deriving DecidableEq, Repr

/-- Model of `convertFromHEIC`: hand the blob to heic2any with the requested
output type and quality (in hundredths; the source default is the literal
0.8); on success the result carries the target mime type and the name with
the extension replaced (.jpg or .png); the quality only affects the encoded
payload, which is not observable. -/
def convertFromHEIC (env : Env) (file : ImageFile)
    (targetFormat : HeicTarget := .jpeg) (quality : Nat := 80) :
    Except Err ImageFile :=
  let outputType := match targetFormat with
    | .jpeg => "image/jpeg"
    | .png => "image/png"
  let ext := match targetFormat with
    | .jpeg => ".jpg"
    | .png => ".png"
  if env.heicOk file then
    .ok { name := stripExt file.name ++ ext, mime := outputType,
          width := file.width, height := file.height }
  else .error .heicFail

/-- The format tags accepted by `optimizeImage` (the source uses string
literal union types; this is the closed enumeration). -/
inductive ImgFormat : Type where
  | webp
  | jpeg
  | png
  | avif
  | original
  | heic
deriving DecidableEq, Repr

/-- The options record of `optimizeImage`; `maxWidth` and `maxHeight` are
optional in the source (`maxWidth?: number`), and the documented domain of
the config restricts them to integers that are at least zero. -/
structure OptimizeOptions where
  format : ImgFormat
  quality : Nat
  maxWidth : Option Nat := none
  maxHeight : Option Nat := none
deriving DecidableEq, Repr

/-- JavaScript truthiness of an optional numeric field: both `undefined`
and `0` are falsy; any other value of the documented domain is truthy. -/
def natOptTruthy (o : Option Nat) : Bool :=
  o.getD 0 != 0

/-- ASCII lowercasing of one character: the action of `toLowerCase()` on
the ASCII range (the Unicode special cases of the JS method do not touch
the ASCII mime and extension literals compared here). -/
def lowerChar (c : Char) : Char :=
  if 'A' ≤ c ∧ c ≤ 'Z' then Char.ofNat (c.toNat + 32) else c

/-- Model of `s.toLowerCase()`. -/
def jsToLower (s : String) : String :=
  String.mk (s.data.map lowerChar)

/-- Model of `s.endsWith(post)`. -/
def jsEndsWith (s post : String) : Bool :=
  post.data.isSuffixOf s.data

/-- The HEIC detection of `optimizeImage`:
`file.type === "image/heic" || file.name.toLowerCase().endsWith(".heic")`.
The mime comparison is an exact (case-sensitive) string equality; only the
file name is lowercased before the extension check. -/
def isHeicInput (file : ImageFile) : Bool :=
  file.mime == "image/heic" || jsEndsWith (jsToLower file.name) ".heic"

/-- One recorded call to a pipeline stage, with the arguments the source
passes: the legacy conversion target and its quality in hundredths (the
source passes `options.quality / 100`), the resize dimensions, or the
conversion format and percent quality. -/
inductive Stage : Type where
  | legacy : HeicTarget → Nat → Stage
  | resized : Nat → Nat → Stage
  | converted : ImgFormat → Nat → Stage
deriving DecidableEq, Repr

/-- The `switch (options.format)` of `optimizeImage`: dispatch to the four
conversion operations; for the two excluded tags the switch has no case and
the file passes through unchanged (this point is unreachable behind the
format guard). -/
def convertByFormat (env : Env) (fmt : ImgFormat) (file : ImageFile)
    (quality : Nat) : Except Err ImageFile :=
  match fmt with
  | .webp => convertToWebP env file quality
  | .jpeg => convertToJPEG env file quality
  | .png => convertToPNG env file quality
  | .avif => convertToAVIF env file quality
  | .original => .ok file
  | .heic => .ok file

/-- Model of `optimizeImage` (App.tsx version): the HEIC stage, the resize
stage and the format-conversion stage in source order, each stage taking the
previous stage output; alongside the processed file it returns the list of
stage calls that were made, in order, as the instrumented-adapter trace.
The try/catch of the source logs and rethrows the same error, so failure
propagation is the `Except` bind. -/
def optimizeImage (env : Env) (file : ImageFile) (options : OptimizeOptions) :
    Except Err (ImageFile × List Stage) := do
  let (f1, t1) ←
    if isHeicInput file then do
      let r ← convertFromHEIC env file .jpeg options.quality
      pure (r, [Stage.legacy .jpeg options.quality])
    else
      pure (file, ([] : List Stage))
  let (f2, t2) ←
    if natOptTruthy options.maxWidth && natOptTruthy options.maxHeight then do
      let r ← resizeImage env f1 (options.maxWidth.getD 0) (options.maxHeight.getD 0)
      pure (r, [Stage.resized (options.maxWidth.getD 0) (options.maxHeight.getD 0)])
    else
      pure (f1, ([] : List Stage))
  let (f3, t3) ←
    if options.format != ImgFormat.original && options.format != ImgFormat.heic then do
      let r ← convertByFormat env options.format f2 options.quality
      pure (r, [Stage.converted options.format options.quality])
    else
      pure (f2, ([] : List Stage))
  pure (f3, t1 ++ t2 ++ t3)

/-- The first pipeline stage of `optimizeImage` in isolation: the HEIC
conversion when the input is detected as HEIC, otherwise the identity. -/
def legacyStage (env : Env) (options : OptimizeOptions) (file : ImageFile) :
    Except Err ImageFile :=
  if isHeicInput file then
    convertFromHEIC env file .jpeg options.quality
  else .ok file

/-- The second pipeline stage in isolation: resize when both constraints
are truthy, otherwise the identity. -/
def resizeStage (env : Env) (options : OptimizeOptions) (file : ImageFile) :
    Except Err ImageFile :=
  if natOptTruthy options.maxWidth && natOptTruthy options.maxHeight then
    resizeImage env file (options.maxWidth.getD 0) (options.maxHeight.getD 0)
  else .ok file

/-- The third pipeline stage in isolation: format conversion when the
requested format is neither `original` nor `heic`, otherwise the identity. -/
def convertStage (env : Env) (options : OptimizeOptions) (file : ImageFile) :
    Except Err ImageFile :=
  if options.format != ImgFormat.original && options.format != ImgFormat.heic then
    convertByFormat env options.format file options.quality
  else .ok file

/-- The output format tags of `generateFavicon`. -/
inductive FaviconFormat : Type where
  | ico
  | png
deriving DecidableEq, Repr

/-- The options record of `generateFavicon`. -/
structure FaviconOptions where
  sizes : List Nat
  outputFormat : FaviconFormat
deriving DecidableEq, Repr

/-- The `Promise.all(options.sizes.map(...))` of `generateFavicon`: for each
size, resize the source to size by size and decode the result onto a canvas;
the resulting canvases are in the order of the size list, and any failure
fails the whole batch. -/
def faviconCanvases (env : Env) (file : ImageFile) :
    List Nat → Except Err (List Canvas)
  | [] => .ok []
  | s :: rest => do
      let resized ← resizeImage env file s s
      let c ← createCanvasFromFile env resized
      let cs ← faviconCanvases env file rest
      pure (c :: cs)

/-- Model of `generateIcoFile`: `reduce` over the canvases picks the one of
largest width (on a tie the later one); on an empty list, `reduce` with no
initial value throws a TypeError, modelled as `invalidSelection`.  The
selected canvas is encoded as a PNG payload but labelled with the ICO mime
type and the fixed name favicon.ico. -/
def generateIcoFile (env : Env) (canvases : List Canvas) : Except Err ImageFile :=
  match canvases with
  | [] => .error .invalidSelection
  | c :: cs =>
      let largestCanvas := cs.foldl (fun a b => if a.width > b.width then a else b) c
      if env.encodeOk largestCanvas.width largestCanvas.height "image/png" none then
        .ok { name := "favicon.ico", mime := "image/x-icon",
              width := largestCanvas.width, height := largestCanvas.height }
      else .error .icoBlobFail

/-- Model of `generateFavicon`: build all canvases, then either delegate to
`generateIcoFile` or, for PNG output, select the canvas at the index of the
largest requested size and encode only it.  `Math.max()` of an empty spread
is minus infinity and `indexOf` then yields `-1`, so the selection on an
empty size list is a runtime failure in both branches, modelled as
`invalidSelection`. -/
def generateFavicon (env : Env) (file : ImageFile) (options : FaviconOptions) :
    Except Err ImageFile := do
  let canvases ← faviconCanvases env file options.sizes
  match options.outputFormat with
  | .ico => generateIcoFile env canvases
  | .png =>
      match options.sizes.max? with
      | none => .error .invalidSelection
      | some largestSize =>
          match canvases[options.sizes.indexOf largestSize]? with
          | none => .error .invalidSelection
          | some canvas =>
              if env.encodeOk canvas.width canvas.height "image/png" none then
                .ok { name := s!"favicon-{largestSize}x{largestSize}.png",
                      mime := "image/png",
                      width := canvas.width, height := canvas.height }
              else .error .pngBlobFail

/-- The content of one archive entry: a PNG payload of the given surface
dimensions, or a text payload. -/
inductive EntryData : Type where
  | png : Nat → Nat → EntryData
  | text : String → EntryData
deriving DecidableEq, Repr

/-- One named entry of the zip archive. -/
structure ZipEntry where
  name : String
  data : EntryData
deriving DecidableEq, Repr

/-- Model of `zip.file(name, content)` (JSZip): adding an entry under an
existing name replaces that entry in place, otherwise the entry is appended;
iteration order of the archive is insertion order. -/
def zipAdd (entries : List ZipEntry) (e : ZipEntry) : List ZipEntry :=
  if entries.any (fun x => x.name == e.name) then
    entries.map (fun x => if x.name == e.name then e else x)
  else entries ++ [e]

/-- The kind tag of a preview descriptor (field `type` in the source). -/
inductive PreviewKind : Type where
  | icon
  | splash
deriving DecidableEq, Repr

/-- A preview descriptor `{name, url, type}`; the object URL is a runtime
handle with no observable structure and is not modelled. -/
structure Preview where
  name : String
  kind : PreviewKind
deriving DecidableEq, Repr

/-- The options record of `generatePWAIcons`. -/
structure PWAOptions where
  iconSizes : List Nat
  splashSizes : List (Nat × Nat)
  backgroundColor : String
deriving DecidableEq, Repr

/-- The icon entry name template `icon-{size}x{size}.png`. -/
def iconName (s : Nat) : String :=
  s!"icon-{s}x{s}.png"

/-- The splash entry name template `splash-{width}x{height}.png`, over a
width-height pair. -/
def splashName (wh : Nat × Nat) : String :=
  s!"splash-{wh.1}x{wh.2}.png"

/-- The manifest icon descriptor the source builds for one icon size:
`(size) => (\x7b src, sizes, type \x7d)`. -/
def manifestIconVal (s : Nat) : JsVal :=
  .obj (JsObj.ofList
    [("src", .str (iconName s)),
     ("sizes", .str s!"{s}x{s}"),
     ("type", .str "image/png")])

/-- The zip archive file returned by `generatePWAIcons`: a named blob whose
observable content is its ordered entry list. -/
structure ZipFile where
  name : String
  mime : String
  entries : List ZipEntry
deriving DecidableEq, Repr

/-- The return record of `generatePWAIcons`. -/
structure PWABundle where
  zip : ZipFile
  previews : List Preview
deriving DecidableEq, Repr

/-- The icon loop of `generatePWAIcons` (App.tsx version): for each size,
resize and decode to a canvas, encode the canvas as PNG; when the encode
yields a blob the entry and its preview are recorded, and when it yields
null the `if (blob)` guard of the source silently skips the entry. -/
def pwaIconLoop (env : Env) (file : ImageFile)
    (acc : List ZipEntry × List Preview) :
    List Nat → Except Err (List ZipEntry × List Preview)
  | [] => .ok acc
  | s :: rest => do
      let resized ← resizeImage env file s s
      let canvas ← createCanvasFromFile env resized
      if env.encodeOk canvas.width canvas.height "image/png" none then
        pwaIconLoop env file
          (zipAdd acc.1 { name := iconName s, data := .png canvas.width canvas.height },
           acc.2 ++ [{ name := iconName s, kind := .icon }]) rest
      else
        pwaIconLoop env file acc rest

/-- The splash loop of `generatePWAIcons`: for each pair, create a canvas of
exactly that size, fill it with the background color, decode the original
source image and draw it centered in a square of side `min w h * 0.8` (the
fill color and draw coordinates only affect pixel content, which is not
observable), then encode as PNG with the same silent `if (blob)` skip. -/
def pwaSplashLoop (env : Env) (file : ImageFile) (backgroundColor : String)
    (acc : List ZipEntry × List Preview) :
    List (Nat × Nat) → Except Err (List ZipEntry × List Preview)
  | [] => .ok acc
  | (w, h) :: rest =>
      if !env.ctxOk then .error .ctxFail
      else do
        let _img ← createImageFromFile env file
        if env.encodeOk w h "image/png" none then
          pwaSplashLoop env file backgroundColor
            (zipAdd acc.1 { name := splashName (w, h), data := .png w h },
             acc.2 ++ [{ name := splashName (w, h), kind := .splash }]) rest
        else
          pwaSplashLoop env file backgroundColor acc rest

/-- Model of `generatePWAIcons` (App.tsx version): run the icon loop, then
the splash loop, then add the manifest entry (the object literal of the
source serialized with `JSON.stringify(-, null, 2)`), and wrap the entries
as pwa-assets.zip together with the accumulated preview list. -/
def generatePWAIcons (env : Env) (file : ImageFile) (options : PWAOptions) :
    Except Err PWABundle := do
  let acc1 ← pwaIconLoop env file ([], []) options.iconSizes
  let acc2 ← pwaSplashLoop env file options.backgroundColor acc1 options.splashSizes
  let entries := zipAdd acc2.1
    { name := "manifest.json",
      data := .text (jsStringify (.obj (JsObj.ofList
        [("name", .str "My PWA"),
         ("short_name", .str "PWA"),
         ("icons", .arr (JsArr.ofList (options.iconSizes.map manifestIconVal))),
         ("background_color", .str options.backgroundColor),
         ("theme_color", .str options.backgroundColor),
         ("display", .str "standalone")]))) }
  pure { zip := { name := "pwa-assets.zip", mime := "application/zip",
                  entries := entries },
         previews := acc2.2 }

instance {ε α : Type} [DecidableEq ε] [DecidableEq α] : DecidableEq (Except ε α) := fun a b =>
  match a, b with
  | .ok x, .ok y =>
      if h : x = y then .isTrue (by rw [h])
      else .isFalse (by intro hc; injection hc; contradiction)
  | .error e, .error f =>
      if h : e = f then .isTrue (by rw [h])
      else .isFalse (by intro hc; injection hc; contradiction)
  | .ok _, .error _ => .isFalse (by intro hc; injection hc)
  | .error _, .ok _ => .isFalse (by intro hc; injection hc)

@[simp]
theorem except_bind_ok {ε α β : Type} (a : α) (f : α → Except ε β) :
    (Except.ok a : Except ε α) >>= f = f a := rfl

@[simp]
theorem except_bind_err {ε α β : Type} (e : ε) (f : α → Except ε β) :
    (Except.error e : Except ε α) >>= f = Except.error e := rfl

/-- Success characterization of `resizeImage`: a successful resize keeps the
name and mime tag and has exactly the requested dimensions. -/
theorem resizeImage_ok {env : Env} {file : ImageFile} {width height : Nat}
    {res : ImageFile} (h : resizeImage env file width height = .ok res) :
    res = { name := file.name, mime := file.mime, width := width, height := height } := by
  unfold resizeImage at h
  split_ifs at h
  · exact (Except.ok.inj h).symm

/-- Success characterization of `convertFromHEIC`. -/
theorem convertFromHEIC_ok {env : Env} {file : ImageFile} {tf : HeicTarget}
    {q : Nat} {res : ImageFile} (h : convertFromHEIC env file tf q = .ok res) :
    res = { name := stripExt file.name ++ (match tf with | .jpeg => ".jpg" | .png => ".png"),
            mime := (match tf with | .jpeg => "image/jpeg" | .png => "image/png"),
            width := file.width, height := file.height } := by
  cases tf <;>
  · unfold convertFromHEIC at h
    split_ifs at h
    exact (Except.ok.inj h).symm

/-- Success characterization of `convertToWebP`. -/
theorem convertToWebP_ok {env : Env} {file : ImageFile} {q : Nat}
    {res : ImageFile} (h : convertToWebP env file q = .ok res) :
    res = { name := stripExt file.name ++ ".webp", mime := "image/webp",
            width := file.width, height := file.height } := by
  unfold convertToWebP at h
  split_ifs at h
  · exact (Except.ok.inj h).symm

/-- Success characterization of `convertToAVIF`. -/
theorem convertToAVIF_ok {env : Env} {file : ImageFile} {q : Nat}
    {res : ImageFile} (h : convertToAVIF env file q = .ok res) :
    res = { name := stripExt file.name ++ ".avif", mime := "image/avif",
            width := file.width, height := file.height } := by
  unfold convertToAVIF at h
  split_ifs at h
  · exact (Except.ok.inj h).symm

/-- Success characterization of `convertToJPEG`. -/
theorem convertToJPEG_ok {env : Env} {file : ImageFile} {q : Nat}
    {res : ImageFile} (h : convertToJPEG env file q = .ok res) :
    res = { name := stripExt file.name ++ ".jpg", mime := "image/jpeg",
            width := file.width, height := file.height } := by
  unfold convertToJPEG at h
  split_ifs at h
  · exact (Except.ok.inj h).symm

/-- Success characterization of `convertToPNG`. -/
theorem convertToPNG_ok {env : Env} {file : ImageFile} {q : Nat}
    {res : ImageFile} (h : convertToPNG env file q = .ok res) :
    res = { name := stripExt file.name ++ ".png", mime := "image/png",
            width := file.width, height := file.height } := by
  unfold convertToPNG at h
  split_ifs at h
  · exact (Except.ok.inj h).symm

/-- The trace the pipeline produces for a given input and configuration:
one entry per stage whose guard holds, in the fixed source order. -/
def expectedTrace (file : ImageFile) (options : OptimizeOptions) : List Stage :=
  (if isHeicInput file then [Stage.legacy .jpeg options.quality] else []) ++
  (if natOptTruthy options.maxWidth && natOptTruthy options.maxHeight then
    [Stage.resized (options.maxWidth.getD 0) (options.maxHeight.getD 0)]
   else []) ++
  (if options.format != ImgFormat.original && options.format != ImgFormat.heic then
    [Stage.converted options.format options.quality]
   else [])


@[simp]
theorem except_pure {ε α : Type} (a : α) : (pure a : Except ε α) = Except.ok a := rfl

@[simp]
theorem except_map_ok {ε α β : Type} (f : α → β) (a : α) :
    (Except.ok a : Except ε α).map f = Except.ok (f a) := rfl

@[simp]
theorem except_map_err {ε α β : Type} (f : α → β) (e : ε) :
    (Except.error e : Except ε α).map f = Except.error e := rfl

theorem traceStep {α β σ : Type} (c : Bool) (x : Except Err α) (f0 : α) (s : σ)
    (K : α × List σ → Except Err β) :
    (if c then x >>= (fun r => K (r, [s])) else K (f0, [])) =
    (if c then x else .ok f0) >>= fun r => K (r, if c then [s] else []) := by
  cases c <;> simp

theorem optimizeImage_decomp (env : Env) (file : ImageFile)
    (options : OptimizeOptions) :
    optimizeImage env file options =
      ((legacyStage env options file >>= resizeStage env options) >>=
        convertStage env options).map
        (fun f3 => (f3, expectedTrace file options)) := by
  unfold optimizeImage legacyStage resizeStage convertStage expectedTrace
  simp only [except_pure, except_bind_ok]
  cases h1 : isHeicInput file with
  | false =>
    simp only [Bool.false_eq_true, if_false]
    cases h2 : natOptTruthy options.maxWidth && natOptTruthy options.maxHeight with
    | false =>
      simp only [Bool.false_eq_true, if_false, except_bind_ok]
      cases h3 : options.format != ImgFormat.original && options.format != ImgFormat.heic with
      | false => simp
      | true =>
        simp only [if_true]
        cases hC : convertByFormat env options.format file options.quality <;> simp
    | true =>
      simp only [if_true]
      cases hB : resizeImage env file (options.maxWidth.getD 0) (options.maxHeight.getD 0) with
      | error e => simp [hB]
      | ok f2 =>
        simp only [hB, except_bind_ok]
        cases h3 : options.format != ImgFormat.original && options.format != ImgFormat.heic with
        | false => simp
        | true =>
          simp only [if_true]
          cases hC : convertByFormat env options.format f2 options.quality <;> simp
  | true =>
    simp only [if_true]
    cases hA : convertFromHEIC env file .jpeg options.quality with
    | error e => simp [hA]
    | ok f1 =>
      simp only [hA, except_bind_ok]
      cases h2 : natOptTruthy options.maxWidth && natOptTruthy options.maxHeight with
      | false =>
        simp only [Bool.false_eq_true, if_false, except_bind_ok]
        cases h3 : options.format != ImgFormat.original && options.format != ImgFormat.heic with
        | false => simp
        | true =>
          simp only [if_true]
          cases hC : convertByFormat env options.format f1 options.quality <;> simp [hC]
      | true =>
        simp only [if_true]
        cases hB : resizeImage env f1 (options.maxWidth.getD 0) (options.maxHeight.getD 0) with
        | error e => simp [hB]
        | ok f2 =>
          simp only [hB, except_bind_ok]
          cases h3 : options.format != ImgFormat.original && options.format != ImgFormat.heic with
          | false => simp
          | true =>
            simp only [if_true]
            cases hC : convertByFormat env options.format f2 options.quality <;> simp [hC]

/-- Inversion of a successful pipeline run: the trace is `expectedTrace` and
all three stages succeeded in sequence, the last one producing the result. -/
theorem optimizeImage_ok_inv {env : Env} {file : ImageFile}
    {options : OptimizeOptions} {res : ImageFile} {t : List Stage}
    (h : optimizeImage env file options = .ok (res, t)) :
    t = expectedTrace file options ∧
    ∃ f1 f2, legacyStage env options file = .ok f1 ∧
      resizeStage env options f1 = .ok f2 ∧ convertStage env options f2 = .ok res := by
  rw [optimizeImage_decomp] at h
  cases hx : legacyStage env options file with
  | error e => rw [hx] at h; simp at h
  | ok f1 =>
    rw [hx] at h
    simp only [except_bind_ok] at h
    cases hy : resizeStage env options f1 with
    | error e => rw [hy] at h; simp at h
    | ok f2 =>
      rw [hy] at h
      simp only [except_bind_ok] at h
      cases hz : convertStage env options f2 with
      | error e => rw [hz] at h; simp at h
      | ok f3 =>
        rw [hz] at h
        simp only [except_map_ok, Except.ok.injEq, Prod.mk.injEq] at h
        exact ⟨h.2.symm, f1, f2, rfl, hy, h.1 ▸ hz⟩

/-- A failure of the first stage is the failure of the whole pipeline. -/
theorem optimizeImage_err1 {env : Env} {file : ImageFile}
    {options : OptimizeOptions} {e : Err}
    (h : legacyStage env options file = .error e) :
    optimizeImage env file options = .error e := by
  rw [optimizeImage_decomp, h]; rfl

/-- A failure of the second stage is the failure of the whole pipeline. -/
theorem optimizeImage_err2 {env : Env} {file : ImageFile}
    {options : OptimizeOptions} {f1 : ImageFile} {e : Err}
    (h1 : legacyStage env options file = .ok f1)
    (h2 : resizeStage env options f1 = .error e) :
    optimizeImage env file options = .error e := by
  rw [optimizeImage_decomp, h1]
  simp only [except_bind_ok]
  rw [h2]; rfl

/-- A failure of the third stage is the failure of the whole pipeline. -/
theorem optimizeImage_err3 {env : Env} {file : ImageFile}
    {options : OptimizeOptions} {f1 f2 : ImageFile} {e : Err}
    (h1 : legacyStage env options file = .ok f1)
    (h2 : resizeStage env options f1 = .ok f2)
    (h3 : convertStage env options f2 = .error e) :
    optimizeImage env file options = .error e := by
  rw [optimizeImage_decomp, h1]
  simp only [except_bind_ok]
  rw [h2]
  simp only [except_bind_ok]
  rw [h3]; rfl

/-- The trace is always an in-order selection from the fixed stage sequence
legacy, resize, convert: stages are never reordered and none runs twice. -/
theorem expectedTrace_sublist (file : ImageFile) (options : OptimizeOptions) :
    (expectedTrace file options).Sublist
      [Stage.legacy .jpeg options.quality,
       Stage.resized (options.maxWidth.getD 0) (options.maxHeight.getD 0),
       Stage.converted options.format options.quality] := by
  unfold expectedTrace
  cases isHeicInput file <;>
  cases natOptTruthy options.maxWidth && natOptTruthy options.maxHeight <;>
  cases options.format != ImgFormat.original && options.format != ImgFormat.heic <;>
  simp

/-- All four conversion operations draw onto a canvas of the natural
dimensions of their input, so a successful conversion preserves dimensions. -/
theorem convertByFormat_ok_dims {env : Env} {fmt : ImgFormat} {f : ImageFile}
    {q : Nat} {res : ImageFile} (h : convertByFormat env fmt f q = .ok res) :
    res.width = f.width ∧ res.height = f.height := by
  cases fmt <;> simp only [convertByFormat] at h
  · rw [convertToWebP_ok h]; exact ⟨rfl, rfl⟩
  · rw [convertToJPEG_ok h]; exact ⟨rfl, rfl⟩
  · rw [convertToPNG_ok h]; exact ⟨rfl, rfl⟩
  · rw [convertToAVIF_ok h]; exact ⟨rfl, rfl⟩
  · injection h with h2; subst h2; exact ⟨rfl, rfl⟩
  · injection h with h2; subst h2; exact ⟨rfl, rfl⟩

/-- The legacy stage preserves dimensions (heic2any re-encodes the same image). -/
theorem legacyStage_ok_dims {env : Env} {options : OptimizeOptions}
    {file f1 : ImageFile} (h : legacyStage env options file = .ok f1) :
    f1.width = file.width ∧ f1.height = file.height := by
  unfold legacyStage at h
  split_ifs at h
  · rw [convertFromHEIC_ok h]; exact ⟨rfl, rfl⟩
  · injection h with h2; subst h2; exact ⟨rfl, rfl⟩

/-- The convert stage preserves dimensions. -/
theorem convertStage_ok_dims {env : Env} {options : OptimizeOptions}
    {f res : ImageFile} (h : convertStage env options f = .ok res) :
    res.width = f.width ∧ res.height = f.height := by
  unfold convertStage at h
  split_ifs at h
  · exact convertByFormat_ok_dims h
  · injection h with h2; subst h2; exact ⟨rfl, rfl⟩

/-- When its guard is false the resize stage is the identity. -/
theorem resizeStage_id {env : Env} {options : OptimizeOptions} {f res : ImageFile}
    (hc : (natOptTruthy options.maxWidth && natOptTruthy options.maxHeight) = false)
    (h : resizeStage env options f = .ok res) : res = f := by
  unfold resizeStage at h
  rw [hc] at h
  simp only [Bool.false_eq_true, if_false] at h
  injection h with h2
  exact h2.symm

/-- Truthiness of an optional numeric field is positivity of its value. -/
theorem natOptTruthy_iff (o : Option Nat) : natOptTruthy o = true ↔ 0 < o.getD 0 := by
  simp [natOptTruthy, Nat.pos_iff_ne_zero]

/-- A resize stage call is recorded in the trace exactly when the resize
guard of the source holds. -/
theorem resized_mem_expectedTrace (file : ImageFile) (options : OptimizeOptions) :
    (∃ w h, Stage.resized w h ∈ expectedTrace file options) ↔
      (natOptTruthy options.maxWidth && natOptTruthy options.maxHeight) = true := by
  unfold expectedTrace
  cases h1 : isHeicInput file <;>
  cases h2 : natOptTruthy options.maxWidth && natOptTruthy options.maxHeight <;>
  cases h3 : options.format != ImgFormat.original && options.format != ImgFormat.heic <;>
  simp

/-- A legacy stage call is recorded in the trace exactly when the source
detects a HEIC input. -/
theorem legacy_mem_expectedTrace (file : ImageFile) (options : OptimizeOptions) :
    (∃ tf q, Stage.legacy tf q ∈ expectedTrace file options) ↔
      isHeicInput file = true := by
  unfold expectedTrace
  cases h1 : isHeicInput file <;>
  cases h2 : natOptTruthy options.maxWidth && natOptTruthy options.maxHeight <;>
  cases h3 : options.format != ImgFormat.original && options.format != ImgFormat.heic <;>
  simp

/-- On a detected HEIC input the first recorded stage is the legacy
conversion to JPEG at the configured quality. -/
theorem expectedTrace_head {file : ImageFile} {options : OptimizeOptions}
    (h : isHeicInput file = true) :
    (expectedTrace file options).head? = some (Stage.legacy .jpeg options.quality) := by
  unfold expectedTrace
  rw [h]
  simp

/-- The spelled-out form of the HEIC detection condition. -/
theorem isHeicInput_iff (file : ImageFile) :
    isHeicInput file = true ↔
      (file.mime = "image/heic" ∨ jsEndsWith (jsToLower file.name) ".heic" = true) := by
  simp [isHeicInput]

/-- C1: optimizeImage runs its stages in a fixed order on every input —
legacy HEIC conversion, then resize, then format conversion; the pipeline is
the bind-composition of the three stages, so each stage consumes the
previous stage output, and the recorded stage trace is always an in-order
selection from the fixed three-stage sequence: stages are never reordered
and no stage runs twice. -/
theorem C1_pipeline_fixed_order (env : Env) (file : ImageFile)
    (options : OptimizeOptions) :
    optimizeImage env file options =
      ((legacyStage env options file >>= resizeStage env options) >>=
        convertStage env options).map (fun f3 => (f3, expectedTrace file options)) ∧
    (expectedTrace file options).Sublist
      [Stage.legacy .jpeg options.quality,
       Stage.resized (options.maxWidth.getD 0) (options.maxHeight.getD 0),
       Stage.converted options.format options.quality] :=
  ⟨optimizeImage_decomp env file options, expectedTrace_sublist file options⟩

/-- C2: a successful optimizeImage run performs the resize stage iff both
maxWidth and maxHeight are positive; with a partial constraint no resize
occurs and the output dimensions equal the input dimensions, the later
format conversion notwithstanding. -/
theorem C2_resize_gating (env : Env) (file : ImageFile)
    (options : OptimizeOptions) (res : ImageFile) (t : List Stage)
    (h : optimizeImage env file options = .ok (res, t)) :
    ((∃ w h2, Stage.resized w h2 ∈ t) ↔
      (0 < options.maxWidth.getD 0 ∧ 0 < options.maxHeight.getD 0)) ∧
    (¬(0 < options.maxWidth.getD 0 ∧ 0 < options.maxHeight.getD 0) →
      res.width = file.width ∧ res.height = file.height) := by
  obtain ⟨ht, f1, f2, h1, h2, h3⟩ := optimizeImage_ok_inv h
  subst ht
  constructor
  · rw [resized_mem_expectedTrace, Bool.and_eq_true, natOptTruthy_iff, natOptTruthy_iff]
  · intro hneg
    have hcond : (natOptTruthy options.maxWidth && natOptTruthy options.maxHeight) = false := by
      cases hc : natOptTruthy options.maxWidth && natOptTruthy options.maxHeight
      · rfl
      · rw [Bool.and_eq_true, natOptTruthy_iff, natOptTruthy_iff] at hc
        exact absurd hc hneg
    obtain ⟨hw1, hh1⟩ := legacyStage_ok_dims h1
    have hid := resizeStage_id hcond h2
    subst hid
    obtain ⟨hw3, hh3⟩ := convertStage_ok_dims h3
    exact ⟨hw3.trans hw1, hh3.trans hh1⟩

set_option maxRecDepth 10000 in
/-- C2 witness: with maxWidth 100 and maxHeight 0 no resize stage is
recorded and the output keeps the input dimensions. -/
theorem C2_resize_gating_witness :
    ((∃ w h2, Stage.resized w h2 ∈ ([] : List Stage)) ↔
      (0 < (({ format := .original, quality := 80, maxWidth := some 100,
               maxHeight := some 0 } : OptimizeOptions)).maxWidth.getD 0 ∧
       0 < (({ format := .original, quality := 80, maxWidth := some 100,
               maxHeight := some 0 } : OptimizeOptions)).maxHeight.getD 0)) ∧
    (¬(0 < (({ format := .original, quality := 80, maxWidth := some 100,
               maxHeight := some 0 } : OptimizeOptions)).maxWidth.getD 0 ∧
       0 < (({ format := .original, quality := 80, maxWidth := some 100,
               maxHeight := some 0 } : OptimizeOptions)).maxHeight.getD 0) →
      (⟨"a.jpg", "image/jpeg", 100, 50⟩ : ImageFile).width =
        (⟨"a.jpg", "image/jpeg", 100, 50⟩ : ImageFile).width ∧
      (⟨"a.jpg", "image/jpeg", 100, 50⟩ : ImageFile).height =
        (⟨"a.jpg", "image/jpeg", 100, 50⟩ : ImageFile).height) :=
  C2_resize_gating envAll ⟨"a.jpg", "image/jpeg", 100, 50⟩
    { format := .original, quality := 80, maxWidth := some 100, maxHeight := some 0 }
    ⟨"a.jpg", "image/jpeg", 100, 50⟩ [] (by decide)

/-- C7 counterexample: a file whose declared mime type matches the HEIC mime
type up to case (`image/HEIC`) but not exactly, and whose name has no .heic
extension, is NOT detected: the pipeline runs no legacy stage and returns the
file unchanged, although a case-insensitive mime check would have fired. -/
theorem C7_mime_case_counterexample :
    jsToLower "image/HEIC" = jsToLower "image/heic" ∧
    isHeicInput { name := "photo.jpg", mime := "image/HEIC", width := 4, height := 4 } = false ∧
    optimizeImage envAll { name := "photo.jpg", mime := "image/HEIC", width := 4, height := 4 }
      { format := .original, quality := 80 } =
      .ok ({ name := "photo.jpg", mime := "image/HEIC", width := 4, height := 4 }, []) :=
  ⟨by decide, by decide, by decide⟩

/-- C7 (amended): a successful optimizeImage run records a legacy HEIC stage
iff the declared mime type is exactly the string image/heic (this comparison
is case-sensitive) or the lowercased file name ends with .heic (this check is
case-insensitive); when the input is detected, the legacy conversion is the
first stage and targets JPEG at the configured quality regardless of the
requested output format. -/
theorem C7_heic_gating (env : Env) (file : ImageFile)
    (options : OptimizeOptions) (res : ImageFile) (t : List Stage)
    (h : optimizeImage env file options = .ok (res, t)) :
    ((∃ tf q, Stage.legacy tf q ∈ t) ↔
      (file.mime = "image/heic" ∨ jsEndsWith (jsToLower file.name) ".heic" = true)) ∧
    (isHeicInput file = true →
      t.head? = some (Stage.legacy .jpeg options.quality)) := by
  obtain ⟨ht, _⟩ := optimizeImage_ok_inv h
  subst ht
  exact ⟨(legacy_mem_expectedTrace file options).trans (isHeicInput_iff file),
         fun hh => expectedTrace_head hh⟩

set_option maxRecDepth 10000 in
/-- C7 witness: a detected HEIC input (lowercase mime and extension) records
the legacy stage first, targeting JPEG at the configured quality even though
webp output was requested. -/
theorem C7_heic_gating_witness :
    ((∃ tf q, Stage.legacy tf q ∈
        [Stage.legacy .jpeg 70, Stage.converted .webp 70]) ↔
      ((⟨"photo.HEIC", "image/jpeg", 4, 4⟩ : ImageFile).mime = "image/heic" ∨
        jsEndsWith (jsToLower (⟨"photo.HEIC", "image/jpeg", 4, 4⟩ : ImageFile).name) ".heic" = true)) ∧
    (isHeicInput ⟨"photo.HEIC", "image/jpeg", 4, 4⟩ = true →
      ([Stage.legacy .jpeg 70, Stage.converted .webp 70] : List Stage).head? =
        some (Stage.legacy .jpeg (({ format := .webp, quality := 70 } : OptimizeOptions)).quality)) :=
  C7_heic_gating envAll ⟨"photo.HEIC", "image/jpeg", 4, 4⟩
    { format := .webp, quality := 70 }
    ⟨"photo.webp", "image/webp", 4, 4⟩
    [Stage.legacy .jpeg 70, Stage.converted .webp 70] (by decide)

/-- C8: any stage failure aborts the pipeline with exactly that stage error,
and a successful pipeline run means every applicable stage succeeded in
sequence, the result being the final stage output — never an intermediate
one. -/
theorem C8_error_propagation (env : Env) (file : ImageFile)
    (options : OptimizeOptions) :
    (∀ e, legacyStage env options file = .error e →
      optimizeImage env file options = .error e) ∧
    (∀ f1 e, legacyStage env options file = .ok f1 →
      resizeStage env options f1 = .error e →
      optimizeImage env file options = .error e) ∧
    (∀ f1 f2 e, legacyStage env options file = .ok f1 →
      resizeStage env options f1 = .ok f2 →
      convertStage env options f2 = .error e →
      optimizeImage env file options = .error e) ∧
    (∀ res t, optimizeImage env file options = .ok (res, t) →
      ∃ f1 f2, legacyStage env options file = .ok f1 ∧
        resizeStage env options f1 = .ok f2 ∧
        convertStage env options f2 = .ok res) :=
  ⟨fun _ h => optimizeImage_err1 h,
   fun _ _ h1 h2 => optimizeImage_err2 h1 h2,
   fun _ _ _ h1 h2 h3 => optimizeImage_err3 h1 h2 h3,
   fun _ _ h => (optimizeImage_ok_inv h).2⟩

/-- The environment in which image decoding always fails. -/
def envNoDecode : Env :=
  { readOk := fun _ => true
    decodeOk := fun _ => false
    ctxOk := true
    encodeOk := fun _ _ _ _ => true
    heicOk := fun _ => true }

set_option maxRecDepth 10000 in
/-- C8 witness: when decoding fails inside the resize stage, the pipeline
fails with exactly that error. -/
theorem C8_error_propagation_witness :
    optimizeImage envNoDecode ⟨"a.jpg", "image/jpeg", 8, 8⟩
      { format := .webp, quality := 80, maxWidth := some 4, maxHeight := some 4 } =
      .error .imgLoad :=
  (C8_error_propagation envNoDecode ⟨"a.jpg", "image/jpeg", 8, 8⟩
    { format := .webp, quality := 80, maxWidth := some 4, maxHeight := some 4 }).2.1
    ⟨"a.jpg", "image/jpeg", 8, 8⟩ Err.imgLoad (by decide) (by decide)

/-- C6: a successful resize yields a blob with exactly the requested
dimensions, preserving the original mime type and file name. -/
theorem C6_resize_dimensions (env : Env) (file : ImageFile) (w h : Nat)
    (res : ImageFile) (hw : 0 < w) (hh : 0 < h)
    (hr : resizeImage env file w h = .ok res) :
    res.width = w ∧ res.height = h ∧ res.mime = file.mime ∧ res.name = file.name := by
  rw [resizeImage_ok hr]
  exact ⟨rfl, rfl, rfl, rfl⟩

/-- C6 witness at a concrete input. -/
theorem C6_resize_dimensions_witness :
    (⟨"a.jpg", "image/jpeg", 10, 20⟩ : ImageFile).width = 10 ∧
    (⟨"a.jpg", "image/jpeg", 10, 20⟩ : ImageFile).height = 20 ∧
    (⟨"a.jpg", "image/jpeg", 10, 20⟩ : ImageFile).mime =
      (⟨"a.jpg", "image/jpeg", 100, 50⟩ : ImageFile).mime ∧
    (⟨"a.jpg", "image/jpeg", 10, 20⟩ : ImageFile).name =
      (⟨"a.jpg", "image/jpeg", 100, 50⟩ : ImageFile).name :=
  C6_resize_dimensions envAll ⟨"a.jpg", "image/jpeg", 100, 50⟩ 10 20
    ⟨"a.jpg", "image/jpeg", 10, 20⟩ (by decide) (by decide) (by decide)

/-- C5: each conversion operation tags its output with exactly the target
mime type and renames the file by replacing the extension according to the
canonical table webp to .webp, jpeg to .jpg, png to .png, avif to .avif. -/
theorem C5_conversion_tags (env : Env) (file : ImageFile) (q : Nat) :
    (∀ res, convertToWebP env file q = .ok res →
      res.mime = "image/webp" ∧ res.name = stripExt file.name ++ ".webp") ∧
    (∀ res, convertToJPEG env file q = .ok res →
      res.mime = "image/jpeg" ∧ res.name = stripExt file.name ++ ".jpg") ∧
    (∀ res, convertToPNG env file q = .ok res →
      res.mime = "image/png" ∧ res.name = stripExt file.name ++ ".png") ∧
    (∀ res, convertToAVIF env file q = .ok res →
      res.mime = "image/avif" ∧ res.name = stripExt file.name ++ ".avif") := by
  refine ⟨fun res h => ?_, fun res h => ?_, fun res h => ?_, fun res h => ?_⟩
  · rw [convertToWebP_ok h]; exact ⟨rfl, rfl⟩
  · rw [convertToJPEG_ok h]; exact ⟨rfl, rfl⟩
  · rw [convertToPNG_ok h]; exact ⟨rfl, rfl⟩
  · rw [convertToAVIF_ok h]; exact ⟨rfl, rfl⟩

/-- C5 witness: all four conversions applied to a concrete file. -/
theorem C5_conversion_tags_witness :
    ((⟨"photo.webp", "image/webp", 3, 3⟩ : ImageFile).mime = "image/webp" ∧
      (⟨"photo.webp", "image/webp", 3, 3⟩ : ImageFile).name = stripExt "photo.png" ++ ".webp") ∧
    ((⟨"photo.jpg", "image/jpeg", 3, 3⟩ : ImageFile).mime = "image/jpeg" ∧
      (⟨"photo.jpg", "image/jpeg", 3, 3⟩ : ImageFile).name = stripExt "photo.png" ++ ".jpg") ∧
    ((⟨"photo.png", "image/png", 3, 3⟩ : ImageFile).mime = "image/png" ∧
      (⟨"photo.png", "image/png", 3, 3⟩ : ImageFile).name = stripExt "photo.png" ++ ".png") ∧
    ((⟨"photo.avif", "image/avif", 3, 3⟩ : ImageFile).mime = "image/avif" ∧
      (⟨"photo.avif", "image/avif", 3, 3⟩ : ImageFile).name = stripExt "photo.png" ++ ".avif") :=
  have h := C5_conversion_tags envAll ⟨"photo.png", "image/png", 3, 3⟩ 80
  ⟨h.1 ⟨"photo.webp", "image/webp", 3, 3⟩ (by decide),
   h.2.1 ⟨"photo.jpg", "image/jpeg", 3, 3⟩ (by decide),
   h.2.2.1 ⟨"photo.png", "image/png", 3, 3⟩ (by decide),
   h.2.2.2 ⟨"photo.avif", "image/avif", 3, 3⟩ (by decide)⟩

/-- A resize failure is one of the four reject sites of resizeImage, never
the invalid-selection TypeError. -/
theorem resizeImage_err {env : Env} {f : ImageFile} {w h : Nat} {e : Err}
    (hr : resizeImage env f w h = .error e) : e ≠ .invalidSelection := by
  unfold resizeImage at hr
  split_ifs at hr <;> injection hr with h2 <;> (subst h2; decide)

/-- A canvas-creation failure is one of the three reject sites of
createCanvasFromFile, never the invalid-selection TypeError. -/
theorem createCanvasFromFile_err {env : Env} {f : ImageFile} {e : Err}
    (hr : createCanvasFromFile env f = .error e) : e ≠ .invalidSelection := by
  unfold createCanvasFromFile at hr
  split_ifs at hr <;> injection hr with h2 <;> (subst h2; decide)

/-- The canvas batch has one canvas per requested size. -/
theorem faviconCanvases_len {env : Env} {file : ImageFile} :
    ∀ {l : List Nat} {cs : List Canvas},
      faviconCanvases env file l = .ok cs → cs.length = l.length := by
  intro l
  induction l with
  | nil =>
    intro cs h
    injection h with h2
    subst h2
    rfl
  | cons s rest ih =>
    intro cs h
    unfold faviconCanvases at h
    cases h1 : resizeImage env file s s with
    | error e => rw [h1] at h; simp at h
    | ok resized =>
      rw [h1] at h
      simp only [except_bind_ok] at h
      cases h2 : createCanvasFromFile env resized with
      | error e => rw [h2] at h; simp at h
      | ok c =>
        rw [h2] at h
        simp only [except_bind_ok] at h
        cases h3 : faviconCanvases env file rest with
        | error e => rw [h3] at h; simp at h
        | ok cs2 =>
          rw [h3] at h
          simp only [except_bind_ok, except_pure, Except.ok.injEq] at h
          subst h
          simp [ih h3]

/-- A failure of the canvas batch is a failure of one of its decode or
encode steps, never the invalid-selection TypeError. -/
theorem faviconCanvases_err {env : Env} {file : ImageFile} :
    ∀ {l : List Nat} {e : Err},
      faviconCanvases env file l = .error e → e ≠ .invalidSelection := by
  intro l
  induction l with
  | nil => intro e h; exact absurd h (by simp [faviconCanvases])
  | cons s rest ih =>
    intro e h
    unfold faviconCanvases at h
    cases h1 : resizeImage env file s s with
    | error e2 =>
      rw [h1] at h
      simp only [except_bind_err, Except.error.injEq] at h
      subst h
      exact resizeImage_err h1
    | ok resized =>
      rw [h1] at h
      simp only [except_bind_ok] at h
      cases h2 : createCanvasFromFile env resized with
      | error e2 =>
        rw [h2] at h
        simp only [except_bind_err, Except.error.injEq] at h
        subst h
        exact createCanvasFromFile_err h2
      | ok c =>
        rw [h2] at h
        simp only [except_bind_ok] at h
        cases h3 : faviconCanvases env file rest with
        | error e2 =>
          rw [h3] at h
          simp only [except_bind_err, Except.error.injEq] at h
          subst h
          exact ih h3
        | ok cs2 => rw [h3] at h; simp at h

/-- The maximum returned by `List.max?` on naturals is a member and an upper
bound of the list. -/
theorem natList_max?_spec {l : List Nat} {m : Nat} (h : l.max? = some m) :
    m ∈ l ∧ ∀ b ∈ l, b ≤ m := by
  exact (List.max?_eq_some_iff (fun a : Nat => Nat.le_refl a)
    (fun a b : Nat => by
      rcases Nat.le_total b a with hx | hx
      · exact Or.inl (Nat.max_eq_left hx)
      · exact Or.inr (Nat.max_eq_right hx))
    (fun a b c : Nat => Nat.max_le)).mp h

/-- C4: with PNG output and a nonempty size list, generateFavicon returns a
single file tagged image/png and named favicon-m-x-m.png for m the maximum
of the requested sizes (the smaller canvases are computed but discarded). -/
theorem C4_favicon_png_collapse (env : Env) (file : ImageFile)
    (sizes : List Nat) (res : ImageFile) (hne : sizes ≠ [])
    (h : generateFavicon env file { sizes := sizes, outputFormat := .png } = .ok res) :
    ∃ m, sizes.max? = some m ∧ m ∈ sizes ∧ (∀ s ∈ sizes, s ≤ m) ∧
      res.name = s!"favicon-{m}x{m}.png" ∧ res.mime = "image/png" := by
  unfold generateFavicon at h
  dsimp only at h
  cases hc : faviconCanvases env file sizes with
  | error e => rw [hc] at h; simp at h
  | ok canvases =>
    rw [hc] at h
    simp only [except_bind_ok] at h
    cases hm : sizes.max? with
    | none => rw [hm] at h; simp at h
    | some m =>
      rw [hm] at h
      dsimp only at h
      cases hg : canvases[sizes.indexOf m]? with
      | none => rw [hg] at h; simp at h
      | some canvas =>
        rw [hg] at h
        dsimp only at h
        split_ifs at h
        injection h with h2
        subst h2
        obtain ⟨hmem, hub⟩ := natList_max?_spec hm
        exact ⟨m, rfl, hmem, hub, rfl, rfl⟩

/-- C4 witness at sizes 16, 32, 48: the single output is favicon-48x48.png. -/
theorem C4_favicon_png_collapse_witness :
    ∃ m, ([16, 32, 48] : List Nat).max? = some m ∧ m ∈ [16, 32, 48] ∧
      (∀ s ∈ [16, 32, 48], s ≤ m) ∧
      (⟨"favicon-48x48.png", "image/png", 48, 48⟩ : ImageFile).name =
        s!"favicon-{m}x{m}.png" ∧
      (⟨"favicon-48x48.png", "image/png", 48, 48⟩ : ImageFile).mime = "image/png" :=
  C4_favicon_png_collapse envAll ⟨"a.png", "image/png", 64, 64⟩ [16, 32, 48]
    ⟨"favicon-48x48.png", "image/png", 48, 48⟩ (by decide) (by decide)

/-- C10: on the empty size list both output branches of generateFavicon fail
with the invalid-selection runtime error instead of producing a file, and on
any nonempty size list the selection of the largest canvas is well defined:
the invalid-selection error cannot occur. -/
theorem C10_favicon_selection (env : Env) (file : ImageFile) :
    (∀ fmt, generateFavicon env file { sizes := [], outputFormat := fmt } =
      .error .invalidSelection) ∧
    (∀ sizes fmt, sizes ≠ [] →
      generateFavicon env file { sizes := sizes, outputFormat := fmt } ≠
        .error .invalidSelection) := by
  constructor
  · intro fmt
    cases fmt <;> rfl
  · intro sizes fmt hne hcontra
    unfold generateFavicon at hcontra
    dsimp only at hcontra
    cases hc : faviconCanvases env file sizes with
    | error e =>
      rw [hc] at hcontra
      simp only [except_bind_err, Except.error.injEq] at hcontra
      exact faviconCanvases_err hc hcontra
    | ok canvases =>
      rw [hc] at hcontra
      simp only [except_bind_ok] at hcontra
      have hlen := faviconCanvases_len hc
      cases fmt with
      | ico =>
        dsimp only at hcontra
        cases hcs : canvases with
        | nil =>
          subst hcs
          simp only [List.length_nil] at hlen
          exact hne (List.length_eq_zero.mp hlen.symm)
        | cons c cs =>
          rw [hcs] at hcontra
          unfold generateIcoFile at hcontra
          dsimp only at hcontra
          split_ifs at hcontra <;> injection hcontra with h2 <;> exact Err.noConfusion h2
      | png =>
        dsimp only at hcontra
        cases hm : sizes.max? with
        | none => exact hne (List.max?_eq_none_iff.mp hm)
        | some m =>
          rw [hm] at hcontra
          dsimp only at hcontra
          obtain ⟨hmem, _⟩ := natList_max?_spec hm
          have hidx : sizes.indexOf m < canvases.length := by
            rw [hlen]
            exact List.indexOf_lt_length.mpr hmem
          rw [List.getElem?_eq_getElem hidx] at hcontra
          dsimp only at hcontra
          split_ifs at hcontra <;> injection hcontra with h2 <;> exact Err.noConfusion h2

/-- C10 witness: the empty size list fails, a nonempty one cannot raise the
invalid-selection error. -/
theorem C10_favicon_selection_witness :
    generateFavicon envAll ⟨"a.png", "image/png", 64, 64⟩
      { sizes := [], outputFormat := .png } = .error .invalidSelection ∧
    generateFavicon envAll ⟨"a.png", "image/png", 64, 64⟩
      { sizes := [16, 32, 48], outputFormat := .png } ≠ .error .invalidSelection :=
  ⟨(C10_favicon_selection envAll ⟨"a.png", "image/png", 64, 64⟩).1 .png,
   (C10_favicon_selection envAll ⟨"a.png", "image/png", 64, 64⟩).2 [16, 32, 48] .png
     (by decide)⟩

/-- Adding an entry under a name that is not yet in the archive appends it. -/
theorem zipAdd_fresh {entries : List ZipEntry} {e : ZipEntry}
    (h : ∀ x ∈ entries, x.name ≠ e.name) : zipAdd entries e = entries ++ [e] := by
  unfold zipAdd
  have hfalse : entries.any (fun x => x.name == e.name) = false := by
    rw [List.any_eq_false]
    intro x hx
    simp only [beq_iff_eq]
    exact h x hx
  rw [hfalse]
  simp

/-- The icon loop of generatePWAIcons, fully characterized under an
environment in which reads, decodes, context creation and the resize
encodes succeed and the generated icon names are fresh and distinct: it
appends, in size order, one entry and one preview per size whose final PNG
encode succeeds, skipping the sizes whose encode fails. -/
theorem pwaIconLoop_spec (env : Env) (file : ImageFile)
    (hr : ∀ f, env.readOk f = true) (hd : ∀ f, env.decodeOk f = true)
    (hc : env.ctxOk = true)
    (he : ∀ w h, env.encodeOk w h file.mime (some 90) = true) :
    ∀ (sizes : List Nat) (z : List ZipEntry) (p : List Preview),
      (∀ s ∈ sizes, ∀ x ∈ z, x.name ≠ iconName s) →
      (sizes.map iconName).Nodup →
      pwaIconLoop env file (z, p) sizes =
        .ok (z ++ (sizes.filter (fun s => env.encodeOk s s "image/png" none)).map
               (fun s => { name := iconName s, data := .png s s }),
             p ++ (sizes.filter (fun s => env.encodeOk s s "image/png" none)).map
               (fun s => { name := iconName s, kind := .icon })) := by
  intro sizes
  induction sizes with
  | nil =>
    intro z p _ _
    simp [pwaIconLoop]
  | cons s rest ih =>
    intro z p hfresh hnd
    rw [List.map_cons, List.nodup_cons] at hnd
    obtain ⟨hnotmem, hndrest⟩ := hnd
    unfold pwaIconLoop
    have hres : resizeImage env file s s =
        .ok { name := file.name, mime := file.mime, width := s, height := s } := by
      simp [resizeImage, hr, hd, hc, he]
    have hcan : createCanvasFromFile env
        { name := file.name, mime := file.mime, width := s, height := s } =
        .ok { width := s, height := s } := by
      simp [createCanvasFromFile, hr, hd, hc]
    rw [hres]
    simp only [except_bind_ok]
    rw [hcan]
    simp only [except_bind_ok]
    cases henc : env.encodeOk s s "image/png" none with
    | false =>
      simp only [Bool.false_eq_true, if_false]
      rw [ih z p (fun s2 hs2 x hx => hfresh s2 (List.mem_cons_of_mem s hs2) x hx) hndrest]
      simp [List.filter_cons, henc]
    | true =>
      simp only [if_true]
      have hfr : ∀ x ∈ z, x.name ≠ iconName s :=
        fun x hx => hfresh s (List.mem_cons_self s rest) x hx
      rw [zipAdd_fresh (fun x hx => hfr x hx)]
      have hfresh2 : ∀ s2 ∈ rest,
          ∀ x ∈ z ++ [{ name := iconName s, data := EntryData.png s s }],
            x.name ≠ iconName s2 := by
        intro s2 hs2 x hx
        rcases List.mem_append.mp hx with hx2 | hx2
        · exact hfresh s2 (List.mem_cons_of_mem s hs2) x hx2
        · rw [List.mem_singleton.mp hx2]
          intro hcontra
          exact hnotmem (by
            rw [show iconName s = iconName s2 from hcontra]
            exact List.mem_map_of_mem iconName hs2)
      rw [ih _ _ hfresh2 hndrest]
      simp [List.filter_cons, henc]

set_option maxHeartbeats 1000000 in
/-- The splash loop of generatePWAIcons, fully characterized in the same
way: one entry and one preview per pair whose PNG encode succeeds, in input
order, skipping the pairs whose encode yields no blob. -/
theorem pwaSplashLoop_spec (env : Env) (file : ImageFile) (bg : String)
    (hr : ∀ f, env.readOk f = true) (hd : ∀ f, env.decodeOk f = true)
    (hc : env.ctxOk = true) :
    ∀ (pairs : List (Nat × Nat)) (z : List ZipEntry) (p : List Preview),
      (∀ wh ∈ pairs, ∀ x ∈ z, x.name ≠ splashName wh) →
      (pairs.map splashName).Nodup →
      pwaSplashLoop env file bg (z, p) pairs =
        .ok (z ++ (pairs.filter (fun wh => env.encodeOk wh.1 wh.2 "image/png" none)).map
               (fun wh => { name := splashName wh, data := .png wh.1 wh.2 }),
             p ++ (pairs.filter (fun wh => env.encodeOk wh.1 wh.2 "image/png" none)).map
               (fun wh => { name := splashName wh, kind := .splash })) := by
  intro pairs
  induction pairs with
  | nil =>
    intro z p _ _
    simp [pwaSplashLoop]
  | cons wh rest ih =>
    obtain ⟨w, h⟩ := wh
    intro z p hfresh hnd
    rw [List.map_cons, List.nodup_cons] at hnd
    obtain ⟨hnotmem, hndrest⟩ := hnd
    unfold pwaSplashLoop
    rw [hc]
    simp only [Bool.not_true, Bool.false_eq_true, if_false]
    have himg : createImageFromFile env file = .ok file := by
      simp [createImageFromFile, hr, hd]
    rw [himg]
    simp only [except_bind_ok]
    cases henc : env.encodeOk w h "image/png" none with
    | false =>
      simp only [Bool.false_eq_true, if_false]
      rw [ih z p (fun wh2 hwh2 x hx => hfresh wh2 (List.mem_cons_of_mem _ hwh2) x hx)
        hndrest]
      simp [List.filter_cons, henc]
    | true =>
      simp only [if_true]
      have hfr : ∀ x ∈ z, x.name ≠ splashName (w, h) :=
        fun x hx => hfresh (w, h) (List.mem_cons_self _ rest) x hx
      rw [zipAdd_fresh (fun x hx => hfr x hx)]
      have hfresh2 : ∀ wh2 ∈ rest,
          ∀ x ∈ z ++ [{ name := splashName (w, h), data := EntryData.png w h }],
            x.name ≠ splashName wh2 := by
        intro wh2 hwh2 x hx
        rcases List.mem_append.mp hx with hx2 | hx2
        · exact hfresh wh2 (List.mem_cons_of_mem _ hwh2) x hx2
        · rw [List.mem_singleton.mp hx2]
          intro hcontra
          exact hnotmem (by
            rw [show splashName (w, h) = splashName wh2 from hcontra]
            exact List.mem_map_of_mem splashName hwh2)
      rw [ih _ _ hfresh2 hndrest]
      simp [List.filter_cons, henc]

/-- The name of an entry built by mapping an entry constructor over a
filtered list is among the names generated from the unfiltered list. -/
theorem name_mem_of_mem_filterMap {α : Type} {p : α → Bool} (mk : α → ZipEntry)
    (nm : α → String) (hmk : ∀ a, (mk a).name = nm a) {l : List α} {x : ZipEntry}
    (hx : x ∈ (l.filter p).map mk) : x.name ∈ l.map nm := by
  obtain ⟨a, ha, hax⟩ := List.mem_map.mp hx
  rw [← hax, hmk]
  exact List.mem_map_of_mem nm (List.mem_of_mem_filter ha)

set_option maxHeartbeats 1000000 in
/-- Full characterization of generatePWAIcons under an environment in which
reads, decodes, context creation and the resize encodes succeed, and with
pairwise distinct entry names: the archive holds the icon entries whose
final PNG encode succeeded, then the splash entries whose encode succeeded,
then the manifest entry, and the previews list the same assets in the same
order. -/
theorem generatePWAIcons_characterization (env : Env) (file : ImageFile)
    (options : PWAOptions)
    (hr : ∀ f, env.readOk f = true) (hd : ∀ f, env.decodeOk f = true)
    (hc : env.ctxOk = true)
    (he : ∀ w h, env.encodeOk w h file.mime (some 90) = true)
    (hnd : (options.iconSizes.map iconName ++
            options.splashSizes.map splashName ++
            ["manifest.json"]).Nodup) :
    generatePWAIcons env file options = .ok
      { zip := { name := "pwa-assets.zip", mime := "application/zip",
                 entries :=
                   (options.iconSizes.filter
                       (fun s => env.encodeOk s s "image/png" none)).map
                     (fun s => { name := iconName s, data := .png s s }) ++
                   (options.splashSizes.filter
                       (fun wh => env.encodeOk wh.1 wh.2 "image/png" none)).map
                     (fun wh => { name := splashName wh,
                                  data := .png wh.1 wh.2 }) ++
                   [{ name := "manifest.json",
                      data := .text (jsStringify (.obj (JsObj.ofList
                        [("name", .str "My PWA"),
                         ("short_name", .str "PWA"),
                         ("icons", .arr (JsArr.ofList
                           (options.iconSizes.map manifestIconVal))),
                         ("background_color", .str options.backgroundColor),
                         ("theme_color", .str options.backgroundColor),
                         ("display", .str "standalone")]))) }] },
        previews :=
          (options.iconSizes.filter
              (fun s => env.encodeOk s s "image/png" none)).map
            (fun s => { name := iconName s, kind := .icon }) ++
          (options.splashSizes.filter
              (fun wh => env.encodeOk wh.1 wh.2 "image/png" none)).map
            (fun wh => { name := splashName wh, kind := .splash }) } := by
  have h1 := List.nodup_append.mp hnd
  have h2 := List.nodup_append.mp h1.1
  have hdisjM := h1.2.2
  have hdisjAB := h2.2.2
  unfold generatePWAIcons
  rw [pwaIconLoop_spec env file hr hd hc he options.iconSizes [] []
    (fun _ _ x hx => absurd hx (List.not_mem_nil x)) h2.1]
  simp only [List.nil_append, except_bind_ok]
  have hfreshS : ∀ wh ∈ options.splashSizes,
      ∀ x ∈ (options.iconSizes.filter
          (fun s => env.encodeOk s s "image/png" none)).map
        (fun s => ({ name := iconName s, data := .png s s } : ZipEntry)),
        x.name ≠ splashName wh := by
    intro wh hwh x hx hcontra
    have hname : x.name ∈ options.iconSizes.map iconName :=
      name_mem_of_mem_filterMap _ iconName (fun _ => rfl) hx
    rw [hcontra] at hname
    exact hdisjAB hname (List.mem_map_of_mem splashName hwh)
  rw [pwaSplashLoop_spec env file options.backgroundColor hr hd hc
    options.splashSizes _ _ hfreshS h2.2.1]
  simp only [except_bind_ok]
  have hfreshM : ∀ x ∈
      (options.iconSizes.filter
          (fun s => env.encodeOk s s "image/png" none)).map
        (fun s => ({ name := iconName s, data := .png s s } : ZipEntry)) ++
      (options.splashSizes.filter
          (fun wh => env.encodeOk wh.1 wh.2 "image/png" none)).map
        (fun wh => ({ name := splashName wh,
                      data := .png wh.1 wh.2 } : ZipEntry)),
      x.name ≠ "manifest.json" := by
    have hM : "manifest.json" ∉
        options.iconSizes.map iconName ++
        options.splashSizes.map splashName :=
      fun hmem => hdisjM hmem (List.mem_singleton.mpr rfl)
    intro x hx hcontra
    have hname : x.name ∈
        options.iconSizes.map iconName ++
        options.splashSizes.map splashName := by
      rcases List.mem_append.mp hx with hx2 | hx2
      · exact List.mem_append.mpr (Or.inl
          (name_mem_of_mem_filterMap _ iconName (fun _ => rfl) hx2))
      · exact List.mem_append.mpr (Or.inr
          (name_mem_of_mem_filterMap _ splashName (fun _ => rfl) hx2))
    rw [hcontra] at hname
    exact hM hname
  rw [zipAdd_fresh (fun x hx => hfreshM x hx)]
  rfl

set_option maxHeartbeats 1000000 in
/-- C3: when every browser primitive succeeds and the generated entry names
are pairwise distinct, the archive returned by generatePWAIcons contains
exactly one icon entry per requested icon size, one splash entry per
requested splash pair (so with splashSizes empty no splash entry exists),
and one manifest.json entry holding the pretty-printed two-space-indented
serialization of the object whose fields are, in order, name, short_name,
icons (one src/sizes/type descriptor per icon size), background_color and
theme_color (both the configured background color), and display standalone. -/
theorem C3_pwa_archive (env : Env) (file : ImageFile) (options : PWAOptions)
    (hr : ∀ f, env.readOk f = true) (hd : ∀ f, env.decodeOk f = true)
    (hc : env.ctxOk = true)
    (he : ∀ w h, env.encodeOk w h file.mime (some 90) = true)
    (hp : ∀ w h, env.encodeOk w h "image/png" none = true)
    (hnd : (options.iconSizes.map iconName ++
            options.splashSizes.map splashName ++
            ["manifest.json"]).Nodup) :
    generatePWAIcons env file options = .ok
      { zip := { name := "pwa-assets.zip", mime := "application/zip",
                 entries :=
                   options.iconSizes.map
                     (fun s => { name := iconName s, data := .png s s }) ++
                   options.splashSizes.map
                     (fun wh => { name := splashName wh,
                                  data := .png wh.1 wh.2 }) ++
                   [{ name := "manifest.json",
                      data := .text (jsStringify (.obj (JsObj.ofList
                        [("name", .str "My PWA"),
                         ("short_name", .str "PWA"),
                         ("icons", .arr (JsArr.ofList
                           (options.iconSizes.map manifestIconVal))),
                         ("background_color", .str options.backgroundColor),
                         ("theme_color", .str options.backgroundColor),
                         ("display", .str "standalone")]))) }] },
        previews :=
          options.iconSizes.map
            (fun s => { name := iconName s, kind := .icon }) ++
          options.splashSizes.map
            (fun wh => { name := splashName wh, kind := .splash }) } := by
  rw [generatePWAIcons_characterization env file options hr hd hc he hnd]
  have hfI : options.iconSizes.filter
      (fun s => env.encodeOk s s "image/png" none) = options.iconSizes :=
    List.filter_eq_self.mpr (fun a _ => hp a a)
  have hfS : options.splashSizes.filter
      (fun wh => env.encodeOk wh.1 wh.2 "image/png" none) = options.splashSizes :=
    List.filter_eq_self.mpr (fun a _ => hp a.1 a.2)
  rw [hfI, hfS]

set_option maxRecDepth 10000 in
/-- C3 witness at the spec example: icon sizes 192 and 512, no splash sizes,
background #ffffff. -/
theorem C3_pwa_archive_witness :
    generatePWAIcons envAll ⟨"logo.jpg", "image/jpeg", 64, 64⟩
      ⟨[192, 512], [], "#ffffff"⟩ = .ok
      { zip := { name := "pwa-assets.zip", mime := "application/zip",
                 entries :=
                   ([192, 512] : List Nat).map
                     (fun s => { name := iconName s, data := .png s s }) ++
                   ([] : List (Nat × Nat)).map
                     (fun wh => { name := splashName wh,
                                  data := .png wh.1 wh.2 }) ++
                   [{ name := "manifest.json",
                      data := .text (jsStringify (.obj (JsObj.ofList
                        [("name", .str "My PWA"),
                         ("short_name", .str "PWA"),
                         ("icons", .arr (JsArr.ofList
                           (([192, 512] : List Nat).map manifestIconVal))),
                         ("background_color", .str "#ffffff"),
                         ("theme_color", .str "#ffffff"),
                         ("display", .str "standalone")]))) }] },
        previews :=
          ([192, 512] : List Nat).map
            (fun s => { name := iconName s, kind := .icon }) ++
          ([] : List (Nat × Nat)).map
            (fun wh => { name := splashName wh, kind := .splash }) } :=
  C3_pwa_archive envAll ⟨"logo.jpg", "image/jpeg", 64, 64⟩
    ⟨[192, 512], [], "#ffffff"⟩
    (fun _ => rfl) (fun _ => rfl) rfl (fun _ _ => rfl) (fun _ _ => rfl)
    (by decide)

/-- The environment in which every primitive succeeds except the PNG encodes
that omit a quality argument, which yield no blob. -/
def env9 : Env :=
  { readOk := fun _ => true
    decodeOk := fun _ => true
    ctxOk := true
    encodeOk := fun _ _ mime q => !(mime == "image/png" && q.isNone)
    heicOk := fun _ => true }

set_option maxRecDepth 10000 in
/-- C9 counterexample: with the PNG encode of the single requested icon
failing, generatePWAIcons does NOT fail with an encode error; it succeeds
and returns an archive that silently omits the icon entry, keeping only the
manifest. -/
theorem C9_encode_failure_counterexample :
    env9.encodeOk 192 192 "image/png" none = false ∧
    generatePWAIcons env9 ⟨"logo.jpg", "image/jpeg", 64, 64⟩
      ⟨[192], [], "#ffffff"⟩ = .ok
      { zip := { name := "pwa-assets.zip", mime := "application/zip",
                 entries := [⟨"manifest.json",
                   .text "\x7b\n  \"name\": \"My PWA\",\n  \"short_name\": \"PWA\",\n  \"icons\": [\n    \x7b\n      \"src\": \"icon-192x192.png\",\n      \"sizes\": \"192x192\",\n      \"type\": \"image/png\"\n    \x7d\n  ],\n  \"background_color\": \"#ffffff\",\n  \"theme_color\": \"#ffffff\",\n  \"display\": \"standalone\"\n\x7d"⟩] },
        previews := [] } :=
  ⟨by decide, by decide⟩

set_option maxHeartbeats 1000000 in
/-- C9 (amended): an icon or splash whose canvas-to-PNG encode yields no
blob is silently dropped from both the archive and the previews, and
generatePWAIcons still succeeds: the archive holds exactly the entries whose
encode succeeded, plus the manifest. -/
theorem C9_encode_skip (env : Env) (file : ImageFile) (options : PWAOptions)
    (hr : ∀ f, env.readOk f = true) (hd : ∀ f, env.decodeOk f = true)
    (hc : env.ctxOk = true)
    (he : ∀ w h, env.encodeOk w h file.mime (some 90) = true)
    (hnd : (options.iconSizes.map iconName ++
            options.splashSizes.map splashName ++
            ["manifest.json"]).Nodup) :
    generatePWAIcons env file options = .ok
      { zip := { name := "pwa-assets.zip", mime := "application/zip",
                 entries :=
                   (options.iconSizes.filter
                       (fun s => env.encodeOk s s "image/png" none)).map
                     (fun s => { name := iconName s, data := .png s s }) ++
                   (options.splashSizes.filter
                       (fun wh => env.encodeOk wh.1 wh.2 "image/png" none)).map
                     (fun wh => { name := splashName wh,
                                  data := .png wh.1 wh.2 }) ++
                   [{ name := "manifest.json",
                      data := .text (jsStringify (.obj (JsObj.ofList
                        [("name", .str "My PWA"),
                         ("short_name", .str "PWA"),
                         ("icons", .arr (JsArr.ofList
                           (options.iconSizes.map manifestIconVal))),
                         ("background_color", .str options.backgroundColor),
                         ("theme_color", .str options.backgroundColor),
                         ("display", .str "standalone")]))) }] },
        previews :=
          (options.iconSizes.filter
              (fun s => env.encodeOk s s "image/png" none)).map
            (fun s => { name := iconName s, kind := .icon }) ++
          (options.splashSizes.filter
              (fun wh => env.encodeOk wh.1 wh.2 "image/png" none)).map
            (fun wh => { name := splashName wh, kind := .splash }) } :=
  generatePWAIcons_characterization env file options hr hd hc he hnd

set_option maxRecDepth 10000 in
/-- C9 witness: in the environment whose quality-less PNG encodes fail, the
filter drops the icon and the call still succeeds. -/
theorem C9_encode_skip_witness :
    generatePWAIcons env9 ⟨"logo.jpg", "image/jpeg", 64, 64⟩
      ⟨[192], [], "#ffffff"⟩ = .ok
      { zip := { name := "pwa-assets.zip", mime := "application/zip",
                 entries :=
                   (([192] : List Nat).filter
                       (fun s => env9.encodeOk s s "image/png" none)).map
                     (fun s => { name := iconName s, data := .png s s }) ++
                   (([] : List (Nat × Nat)).filter
                       (fun wh => env9.encodeOk wh.1 wh.2 "image/png" none)).map
                     (fun wh => { name := splashName wh,
                                  data := .png wh.1 wh.2 }) ++
                   [{ name := "manifest.json",
                      data := .text (jsStringify (.obj (JsObj.ofList
                        [("name", .str "My PWA"),
                         ("short_name", .str "PWA"),
                         ("icons", .arr (JsArr.ofList
                           (([192] : List Nat).map manifestIconVal))),
                         ("background_color", .str "#ffffff"),
                         ("theme_color", .str "#ffffff"),
                         ("display", .str "standalone")]))) }] },
        previews :=
          (([192] : List Nat).filter
              (fun s => env9.encodeOk s s "image/png" none)).map
            (fun s => { name := iconName s, kind := .icon }) ++
          (([] : List (Nat × Nat)).filter
              (fun wh => env9.encodeOk wh.1 wh.2 "image/png" none)).map
            (fun wh => { name := splashName wh, kind := .splash }) } :=
  C9_encode_skip env9 ⟨"logo.jpg", "image/jpeg", 64, 64⟩ ⟨[192], [], "#ffffff"⟩
    (fun _ => rfl) (fun _ => rfl) rfl (fun _ _ => rfl) (by decide)
